import Mathlib

/-!
Verification development for the pydantic-faker repository.

The Python sources (src/pydantic_faker/core.py, server.py, cli.py) are shallowly
embedded below.  Randomness is modelled by an explicit pseudo-random state threaded
through every definition: `random.seed`/`Faker.seed` replace the state by a function
of the seed, exactly as re-seeding makes the subsequent draw sequence a function of
the seed in CPython.  Values produced by the external Faker library are modelled as
deterministic functions of the faker state (their exact text is opaque to every
claim; only determinism, lengths and the consumed-draw sequence matter).  Fallible
operations (`random.randint` on an empty range, exceeding the interpreter recursion
limit) return `Except`.  Machine floats are opaque deterministic tokens: no claim
inspects a float's numeric value.
-/

namespace PydanticFaker

/-- JSON-compatible Python values emitted by the generator (core.py produces
`None`, bools, ints, floats, strings, lists and dicts).  A float is carried as an
opaque token (`floatV`): the claims never inspect float arithmetic. -/
inductive JVal : Type where
  | null : JVal
  | boolV : Bool → JVal
  | intV : Int → JVal
  | floatV : Nat → JVal
  | strV : String → JVal
  | arrV : List JVal → JVal
  | objV : List (String × JVal) → JVal

instance : Inhabited JVal := ⟨JVal.null⟩

/-- State of the `random` module's Mersenne-Twister stream, modelled as a single
word advanced by a deterministic next function. -/
structure RandState : Type where
  val : Nat

/-- Advance the `random` module stream and produce one word. -/
def randNext (r : RandState) : Nat × RandState :=
  let v := (r.val * 1103515245 + 12345) % 2147483648
  (v, RandState.mk v)

/-- `random.seed(n)` (core.py line 82): the stream state becomes a function of the
seed alone. -/
def randomSeed (n : Int) : RandState :=
  RandState.mk ((2 * n.natAbs + (if n < 0 then 1 else 0)) % 2147483648)

/-- `random.random() < p` is decided against this draw: a numerator out of
1000000 (so `< 0.5` is `< 500000` and `< 0.3` is `< 300000`). -/
def randomRandom (r : RandState) : Nat × RandState :=
  let (v, r') := randNext r
  (v % 1000000, r')

/-- `random.randint(a, b)`: uniform integer in `[a, b]`; raises `ValueError` when
the range is empty (`b < a`). -/
def randomRandint (a b : Int) (r : RandState) : Except String (Int × RandState) :=
  if b < a then .error "ValueError: empty range"
  else
    let (v, r') := randNext r
    .ok (a + Int.ofNat (v % (b + 1 - a).toNat), r')

/-- `random.choice(seq)`: uniform index into the sequence.  Every call site in the
source guards against the empty sequence, so the default is never returned there. -/
def randomChoice {α : Type} (xs : List α) (dflt : α) (r : RandState) : α × RandState :=
  let (v, r') := randNext r
  (xs.getD (v % xs.length) dflt, r')

/-- State of one Faker instance: its locale and its own seedable stream. -/
structure FakerState : Type where
  locale : Option String
  val : Nat

/-- Advance a Faker instance's stream and produce one word. -/
def fakerNext (f : FakerState) : Nat × FakerState :=
  let v := (f.val * 22695477 + 1) % 2147483648
  (v, FakerState.mk f.locale v)

/-- `Faker.seed(n)` together with `seed_instance(n)`: the instance's stream becomes
a function of the seed alone (the locale is kept). -/
def fakerSeed (f : FakerState) (n : Int) : FakerState :=
  FakerState.mk f.locale ((2 * n.natAbs + (if n < 0 then 1 else 0)) % 2147483648)

/-- `get_faker_instance` (core.py lines 16-22): build a Faker for the locale; when a
seed is given, seed the class and the instance.  `ambient` models the entropy an
unseeded Faker starts from. -/
def getFakerInstance (locale : Option String) (seed : Option Int) (ambient : Nat) : FakerState :=
  let inst := FakerState.mk locale ambient
  match seed with
  | some n => fakerSeed inst n
  | none => inst

/-- A lower-case letter chosen by a stream word. -/
def letterOf (v : Nat) : Char := Char.ofNat (97 + v % 26)

/-- `faker.pystr(min_chars, max_chars)`: a printable string whose length is drawn
from `[min_chars, max_chars]` (exact when the bounds agree). -/
def fakerPystr (minC maxC : Nat) (f : FakerState) : String × FakerState :=
  let (v, f') := fakerNext f
  let len := if minC ≤ maxC then minC + v % (maxC - minC + 1) else minC
  (String.mk (List.replicate len (letterOf v)), f')

/-- `faker.text(max_nb_chars=k)` for `k ≥ 5`: text of stream-determined length in
`[5, k]`. -/
def fakerText (maxNb : Nat) (f : FakerState) : String × FakerState :=
  let (v, f') := fakerNext f
  let len := 5 + v % (maxNb - 4)
  (String.mk (List.replicate len (letterOf (v + 1))), f')

/-- `"".join(faker.random_letters(length=n))`: exactly `n` letters. -/
def fakerRandomLetters (n : Nat) (f : FakerState) : String × FakerState :=
  let (v, f') := fakerNext f
  (String.mk (List.replicate n (letterOf v)), f')

/-- `faker.word()`. -/
def fakerWord (f : FakerState) : String × FakerState :=
  let (v, f') := fakerNext f
  ("word" ++ toString v, f')

/-- `faker.uuid4(cast_to=str)`. -/
def fakerUuid4 (f : FakerState) : String × FakerState :=
  let (v, f') := fakerNext f
  ("uuid-" ++ toString v, f')

/-- `faker.date_time_between(...).isoformat()` (one draw). -/
def fakerDatetimeIso (f : FakerState) : String × FakerState :=
  let (v, f') := fakerNext f
  ("datetime-" ++ toString v, f')

/-- `faker.date_between(...).isoformat()` (one draw). -/
def fakerDateIso (f : FakerState) : String × FakerState :=
  let (v, f') := fakerNext f
  ("date-" ++ toString v, f')

/-- `faker.time_object().isoformat()` (one draw). -/
def fakerTimeIso (f : FakerState) : String × FakerState :=
  let (v, f') := fakerNext f
  ("time-" ++ toString v, f')

/-- The shape of value a `FAKER_FIELD_NAME_MAP` entry produces: a string, a float
(latitude/longitude), a list of words (`words`), or a bool (`boolean`). -/
inductive FakerKind : Type where
  | strK : FakerKind
  | floatK : FakerKind
  | wordsK : FakerKind
  | boolK : FakerKind

/-- A generic semantic-category string drawn from the instance (locale-dependent). -/
def fakerMethodString (method : String) (f : FakerState) : String × FakerState :=
  let (v, f') := fakerNext f
  (method ++ "/" ++ (f.locale.getD "default") ++ "/" ++ toString v, f')

/-- `FAKER_FIELD_NAME_MAP` (core.py lines 85-161): the field names that dispatch to
a semantic Faker category, tagged with the shape each category returns. -/
def FAKER_FIELD_NAME_MAP : List (String × FakerKind) :=
  [("name", .strK), ("first_name", .strK), ("last_name", .strK), ("prefix", .strK),
   ("suffix", .strK), ("user_name", .strK), ("username", .strK), ("password", .strK),
   ("email", .strK), ("safe_email", .strK), ("free_email", .strK),
   ("company_email", .strK), ("website", .strK), ("phone_number", .strK),
   ("address", .strK), ("street_address", .strK), ("secondary_address", .strK),
   ("building_number", .strK), ("street_name", .strK), ("city", .strK),
   ("state", .strK), ("zip_code", .strK), ("postcode", .strK), ("country", .strK),
   ("country_code", .strK), ("latitude", .floatK), ("longitude", .floatK),
   ("company", .strK), ("company_suffix", .strK), ("catch_phrase", .strK),
   ("bs", .strK), ("job", .strK), ("text", .strK), ("sentence", .strK),
   ("paragraph", .strK), ("word", .strK), ("words", .wordsK), ("slug", .strK),
   ("url", .strK), ("uri", .strK), ("domain_name", .strK), ("ipv4_private", .strK),
   ("ipv4_public", .strK), ("ipv4", .strK), ("ipv6", .strK), ("mac_address", .strK),
   ("date", .strK), ("time", .strK), ("date_time", .strK), ("iso8601", .strK),
   ("timezone", .strK), ("color_name", .strK), ("hex_color", .strK),
   ("rgb_color", .strK), ("safe_hex_color", .strK), ("file_name", .strK),
   ("file_extension", .strK), ("mime_type", .strK), ("boolean", .boolK),
   ("uuid4", .strK), ("md5", .strK), ("sha1", .strK), ("sha256", .strK),
   ("locale", .strK), ("currency_code", .strK), ("credit_card_number", .strK),
   ("credit_card_expire", .strK), ("credit_card_security_code", .strK)]

/-- `field_name in FAKER_FIELD_NAME_MAP`. -/
def lookupFakerMap (fname : String) : Option FakerKind :=
  (FAKER_FIELD_NAME_MAP.find? (fun p => p.1 == fname)).map (fun p => p.2)

/-- Invoke the map entry for a field name (one faker call). -/
def fakerCallByName (fname : String) (kind : FakerKind) (f : FakerState) : JVal × FakerState :=
  match kind with
  | .strK =>
    let (s, f') := fakerMethodString fname f
    (.strV s, f')
  | .floatK =>
    let (v, f') := fakerNext f
    (.floatV v, f')
  | .wordsK =>
    let (v, f') := fakerNext f
    (.arrV [.strV ("w" ++ toString v ++ "a"), .strV ("w" ++ toString v ++ "b"),
            .strV ("w" ++ toString v ++ "c")], f')
  | .boolK =>
    let (v, f') := fakerNext f
    (.boolV (v % 2 == 0), f')

/-- One entry of `field_info.metadata` (an `annotated_types` constraint object): the
attributes the extraction loops read, each possibly absent. -/
structure ConstraintObj : Type where
  gt : Option Int := none
  ge : Option Int := none
  lt : Option Int := none
  le : Option Int := none
  multiple_of : Option Int := none
  min_length : Option Int := none
  max_length : Option Int := none

/-- A pydantic `FieldInfo` as the source reads it: the direct attributes consulted
through `getattr(field_info, ...)`, the `metadata` constraint-object list, and the
`examples` list. -/
structure FieldInfo : Type where
  attrGt : Option Int := none
  attrGe : Option Int := none
  attrLt : Option Int := none
  attrLe : Option Int := none
  attrMultipleOf : Option Int := none
  attrMinLength : Option Int := none
  attrMaxLength : Option Int := none
  metadata : List ConstraintObj := []
  examples : Option (List JVal) := none

instance : Inhabited FieldInfo := ⟨{}⟩

/-- A declared field type as `get_origin`/`get_args` classify it.  `unionT` covers
both `typing.Union` and `X | Y`; `modelT` names a nested pydantic model resolved in
the environment (a Python class reference always resolves); `customT` is any other
unrecognized type. -/
inductive PyType : Type where
  | intT : PyType
  | floatT : PyType
  | strT : PyType
  | boolT : PyType
  | uuidT : PyType
  | dateT : PyType
  | timeT : PyType
  | datetimeT : PyType
  | noneT : PyType
  | unionT : List PyType → PyType
  | literalT : List JVal → PyType
  | enumT : String → List JVal → PyType
  | listT : PyType → PyType
  | dictT : PyType → PyType
  | modelT : String → PyType
  | anyT : PyType
  | customT : String → PyType

instance : Inhabited PyType := ⟨PyType.noneT⟩

/-- `arg is type(None)`. -/
def isNoneType : PyType → Bool
  | .noneT => true
  | _ => false

/-- `str(type_expression)` as used in the `unsupported_type_...` placeholders.
The exact text is irrelevant to every claim; only that it names the type. -/
def pyTypeRepr : PyType → String
  | .intT => "int"
  | .floatT => "float"
  | .strT => "str"
  | .boolT => "bool"
  | .uuidT => "UUID"
  | .dateT => "date"
  | .timeT => "time"
  | .datetimeT => "datetime"
  | .noneT => "NoneType"
  | .unionT _ => "Union"
  | .literalT _ => "Literal"
  | .enumT n _ => n
  | .listT _ => "list"
  | .dictT _ => "dict"
  | .modelT n => n
  | .anyT => "Any"
  | .customT n => n

/-- One declared model field: name, type expression and `FieldInfo`. -/
structure FieldDef : Type where
  fname : String
  ftype : PyType
  info : FieldInfo := {}

/-- A pydantic model class: its name and `model_fields` in declaration order. -/
structure ModelDef : Type where
  mname : String
  fields : List FieldDef

/-- The class table nested `modelT` references resolve in. -/
abbrev Env : Type := List (String × ModelDef)

/-- Resolve a nested model class by name. -/
def envLookup (env : Env) (mn : String) : Option ModelDef :=
  (env.find? (fun p => p.1 == mn)).map (fun p => p.2)

/-- The normalized constraint record `_generate_value_for_type` extracts. -/
structure Extracted : Type where
  gt : Option Int := none
  ge : Option Int := none
  lt : Option Int := none
  le : Option Int := none
  multiple_of : Option Int := none
  min_length : Option Int := none
  max_length : Option Int := none

/-- Overriding step of the metadata loop: a present attribute replaces the value. -/
def applyConstraintObj (e : Extracted) (c : ConstraintObj) : Extracted :=
  { gt := match c.gt with | some v => some v | none => e.gt
    ge := match c.ge with | some v => some v | none => e.ge
    lt := match c.lt with | some v => some v | none => e.lt
    le := match c.le with | some v => some v | none => e.le
    multiple_of := match c.multiple_of with | some v => some v | none => e.multiple_of
    min_length := match c.min_length with | some v => some v | none => e.min_length
    max_length := match c.max_length with | some v => some v | none => e.max_length }

/-- Constraint extraction (core.py lines 327-352): direct attributes first, then
every `metadata` object overrides whichever constraints it carries. -/
def extractConstraints (fi : Option FieldInfo) : Extracted :=
  match fi with
  | none => {}
  | some fi =>
    let base : Extracted :=
      { gt := fi.attrGt, ge := fi.attrGe, lt := fi.attrLt, le := fi.attrLe
        multiple_of := fi.attrMultipleOf
        min_length := fi.attrMinLength, max_length := fi.attrMaxLength }
    fi.metadata.foldl applyConstraintObj base

/-- Narrowed low bound of the int branch (core.py lines 355-361): the default 0
raised by `ge` and by `gt + 1`. -/
def clampLow (e : Extracted) : Int :=
  let m1 : Int := match e.ge with | some g => max 0 g | none => 0
  match e.gt with | some g => max m1 (g + 1) | none => m1

/-- Narrowed high bound of the int branch (core.py lines 363-366): the default
1000 lowered by `le` and by `lt - 1`. -/
def clampHigh (e : Extracted) : Int :=
  let m1 : Int := match e.le with | some l => min 1000 l | none => 1000
  match e.lt with | some l => min m1 (l - 1) | none => m1

/-- Body of the `try` block of the int branch (core.py lines 368-388): collapse an
over-constrained range to its low bound, then draw a multiple of `multiple_of`
when one exists in range, else a plain uniform draw. -/
def genIntCore (e : Extracted) (rg : RandState) : Except String (Int × RandState) :=
  let minV := clampLow e
  let maxV0 := clampHigh e
  let maxV := if maxV0 < minV then minV else maxV0
  match e.multiple_of with
  | some m =>
    if 0 < m then
      let actualMin0 :=
        if 0 ≤ minV then Int.fdiv (minV + m - 1) m * m
        else Int.fdiv minV m * m
      let actualMin := if actualMin0 < minV ∧ minV < 0 then actualMin0 + m else actualMin0
      let actualMax := Int.fdiv maxV m * m
      if actualMax < actualMin then randomRandint minV maxV rg
      else
        match randomRandint 0 (Int.fdiv (actualMax - actualMin) m) rg with
        | .ok (step, rg') => .ok (actualMin + step * m, rg')
        | .error err => .error err
    else randomRandint minV maxV rg
  | none => randomRandint minV maxV rg

/-- The int branch with its `except ValueError: return min_val` handler
(core.py lines 354-390). -/
def genInt (e : Extracted) (rg : RandState) : Int × RandState :=
  match genIntCore e rg with
  | .ok p => p
  | .error _ => (clampLow e, rg)

/-- The extracted `min_length` of the str branch with its default 1 and negative
clamp (core.py lines 423, 426-427). -/
def clampedMinLen (e : Extracted) : Int :=
  let v := e.min_length.getD 1
  if v < 0 then 0 else v

/-- The extracted `max_length` of the str branch with its default 50 and negative
clamp (core.py lines 424, 428-429). -/
def clampedMaxLen (e : Extracted) : Int :=
  let v := e.max_length.getD 50
  if v < 0 then 0 else v

/-- Length bounds of the generic str branch (core.py lines 423-431): defaults
[1, 50], negatives clamped to 0, and `min_len` lowered to `max_len` when it
exceeds it. -/
def strBounds (e : Extracted) : Int × Int :=
  (if clampedMaxLen e < clampedMinLen e then clampedMaxLen e else clampedMinLen e,
   clampedMaxLen e)

/-- The generic str branch (core.py lines 422-449): exact `pystr` when the bounds
agree, otherwise oversized text truncated to `max_len` and padded up to
`min_len`. -/
def genStr (e : Extracted) (fk : FakerState) (rg : RandState) :
    Except String (String × FakerState × RandState) :=
  let (minL, maxL) := strBounds e
  if minL == maxL then
    if 0 < minL then
      let (s, fk') := fakerPystr minL.toNat maxL.toNat fk
      .ok (s, fk', rg)
    else .ok ("", fk, rg)
  else
    match randomRandint minL (max minL (maxL + 5)) rg with
    | .error err => .error err
    | .ok (t0, rg1) =>
      match (if t0 < 5 ∧ 5 < maxL then randomRandint minL 5 rg1 else .ok (t0, rg1)) with
      | .error err => .error err
      | .ok (target, rg2) =>
        let (text0, fk1) := if target ≤ 0 then ("", fk) else fakerText (target + 20).toNat fk
        let text1 := text0.take maxL.toNat
        if text1.length < minL.toNat then
          let (pad, fk2) := fakerRandomLetters (minL.toNat - text1.length) fk1
          .ok (text1 ++ pad, fk2, rg2)
        else .ok (text1, fk1, rg2)

/-- The float branch (core.py lines 392-420): one `random.uniform` draw followed by
pure float arithmetic (epsilon nudges, multiple-of rounding, 2-decimal rounding).
IEEE arithmetic is outside the model, so the result is an opaque deterministic
token of the consumed draw. -/
def genFloat (rg : RandState) : JVal × RandState :=
  let (v, rg') := randNext rg
  (.floatV v, rg')

/-- `min_items` extraction of the list branch (core.py lines 237-243): start at 1,
each metadata object with a `min_length` overrides. -/
def listMinItems (meta : List ConstraintObj) : Int :=
  meta.foldl (fun acc c => match c.min_length with | some v => v | none => acc) 1

/-- `max_items` extraction of the list branch (core.py lines 238-245): start at 3,
each metadata object with a `max_length` overrides. -/
def listMaxItems (meta : List ConstraintObj) : Int :=
  meta.foldl (fun acc c => match c.max_length with | some v => v | none => acc) 3

/-- The list branch's `min_items` after clamping negatives to zero
(core.py lines 247-248). -/
def clampedListMin (meta : List ConstraintObj) : Int :=
  if listMinItems meta < 0 then 0 else listMinItems meta

/-- The list branch's `max_items` after clamping negatives to zero
(core.py lines 249-250). -/
def clampedListMax (meta : List ConstraintObj) : Int :=
  if listMaxItems meta < 0 then 0 else listMaxItems meta

/-- Python `d[k] = v`: replace in place when the key exists (keeping its
position), else append. -/
def dictSet (it : List (String × JVal)) (k : String) (v : JVal) : List (String × JVal) :=
  if it.any (fun p => p.1 == k) then it.map (fun p => if p.1 == k then (p.1, v) else p)
  else it ++ [(k, v)]

/-- A Python dict built from comprehension pairs: duplicate keys silently
collapse, keeping the first position and the latest value. -/
def pyDictFromPairs (ps : List (String × JVal)) : List (String × JVal) :=
  ps.foldl (fun d p => dictSet d p.1 p.2) []

/-- Length post-processing of a name-mapped string (core.py lines 203-226):
truncate to the (negative-clamped) `max_length`, pad with random letters up to
`min_length`, re-truncate if padding overflowed. -/
def applyNameMapLen (s : String) (rawMin rawMax : Option Int) (fk : FakerState) :
    String × FakerState :=
  let (maxC, text1) :=
    match rawMax with
    | some len0 =>
      let len1 := if len0 < 0 then 0 else len0
      (some len1, if len1.toNat < s.length then s.take len1.toNat else s)
    | none => (none, s)
  match rawMin with
  | some m0 =>
    let m1 := if m0 < 0 then 0 else m0
    if text1.length < m1.toNat then
      let (pad, fk') := fakerRandomLetters (m1.toNat - text1.length) fk
      let text2 := text1 ++ pad
      match maxC with
      | some len1 => (if len1.toNat < text2.length then text2.take len1.toNat else text2, fk')
      | none => (text2, fk')
    else (text1, fk)
  | none => (text1, fk)

/-- Result triple of a generation step: value, faker state, random state — or the
Python exception that aborted it. -/
abbrev GenRes (α : Type) : Type := Except String (α × FakerState × RandState)

/-- The recursive value generator a field-level step calls back into
(`_generate_value_for_type` at one greater recursion depth). -/
abbrev GenFun : Type := PyType → Option FieldInfo → FakerState → RandState → GenRes JVal

/-- List-item loop (core.py lines 255-257): each item generated independently from
the item type with no constraints. -/
def genItemsWith (gv : GenFun) (t : PyType) : Nat → FakerState → RandState → GenRes (List JVal)
  | 0, fk, rg => .ok ([], fk, rg)
  | n + 1, fk, rg =>
    match gv t none fk rg with
    | .error e => .error e
    | .ok (v, fk', rg') =>
      match genItemsWith gv t n fk' rg' with
      | .error e => .error e
      | .ok (vs, fk'', rg'') => .ok (v :: vs, fk'', rg'')

/-- Dict-entry loop (core.py lines 276-283): per entry a fresh `faker.word()` key
then a value from the declared value type. -/
def genDictItemsWith (gv : GenFun) (t : PyType) :
    Nat → FakerState → RandState → GenRes (List (String × JVal))
  | 0, fk, rg => .ok ([], fk, rg)
  | n + 1, fk, rg =>
    let (k, fk1) := fakerWord fk
    match gv t none fk1 rg with
    | .error e => .error e
    | .ok (v, fk', rg') =>
      match genDictItemsWith gv t n fk' rg' with
      | .error e => .error e
      | .ok (ps, fk'', rg'') => .ok ((k, v) :: ps, fk'', rg'')

/-- Type dispatch after the examples and name-map checks (core.py lines 231-291):
the list branch, the dict branch, else `_generate_value_for_type` with the field's
info. -/
def genDispatch (gv : GenFun) (fd : FieldDef) (ftg : PyType) (fk : FakerState)
    (rg : RandState) : GenRes JVal :=
  match ftg with
  | .listT itemT =>
    let minI := clampedListMin fd.info.metadata
    let maxI1 := clampedListMax fd.info.metadata
    let maxI := if maxI1 < minI then minI else maxI1
    match randomRandint minI maxI rg with
    | .error e => .error e
    | .ok (num, rg') =>
      match genItemsWith gv itemT num.toNat fk rg' with
      | .error e => .error e
      | .ok (vs, fk', rg'') => .ok (.arrV vs, fk', rg'')
  | .dictT valT =>
    let minD0 := fd.info.attrMinLength.getD 1
    let maxD0 := fd.info.attrMaxLength.getD 3
    let minD1 := if minD0 < 0 then 0 else minD0
    let maxD := if maxD0 < 0 then 0 else maxD0
    let minD := if maxD < minD1 then maxD else minD1
    match randomRandint minD maxD rg with
    | .error e => .error e
    | .ok (num, rg') =>
      match genDictItemsWith gv valT num.toNat fk rg' with
      | .error e => .error e
      | .ok (ps, fk', rg'') => .ok (.objV (pyDictFromPairs ps), fk', rg'')
  | t => gv t (some fd.info) fk rg

/-- Name-map check (core.py lines 197-229): a mapped field name short-circuits to
its semantic category, with length fixing when both the produced value and the
narrowed field type are strings. -/
def genFieldNameOrDispatch (gv : GenFun) (fd : FieldDef) (ftg : PyType)
    (fk : FakerState) (rg : RandState) : GenRes JVal :=
  match lookupFakerMap fd.fname with
  | some kind =>
    let (gvv, fk1) := fakerCallByName fd.fname kind fk
    match gvv, ftg with
    | .strV s, .strT =>
      let (s2, fk2) := applyNameMapLen s fd.info.attrMinLength fd.info.attrMaxLength fk1
      .ok (.strV s2, fk2, rg)
    | _, _ => .ok (gvv, fk1, rg)
  | none => genDispatch gv fd ftg fk rg

/-- Example-value check (core.py lines 185-195): a non-empty examples list
short-circuits, with probability 0.3, to a uniformly chosen example. -/
def genFieldPostNarrow (gv : GenFun) (fd : FieldDef) (ftg : PyType) (fk : FakerState)
    (rg : RandState) : GenRes JVal :=
  match fd.info.examples with
  | some exs =>
    if exs.isEmpty then genFieldNameOrDispatch gv fd ftg fk rg
    else
      let (r, rg1) := randomRandom rg
      if r < 300000 then
        let (v, rg2) := randomChoice exs .null rg1
        .ok (v, fk, rg2)
      else genFieldNameOrDispatch gv fd ftg fk rg1
  | none => genFieldNameOrDispatch gv fd ftg fk rg

/-- One field of the assembly loop (core.py lines 164-291): a union containing
`None` is the optional case — 50% chance of null, else the first non-null
alternative is the generation type; any other annotation passes through
unchanged. -/
def genOneFieldWith (gv : GenFun) (fd : FieldDef) (fk : FakerState) (rg : RandState) :
    GenRes JVal :=
  match fd.ftype with
  | .unionT args =>
    if args.any isNoneType then
      let (r, rg1) := randomRandom rg
      if r < 500000 then .ok (.null, fk, rg1)
      else
        match args.filter (fun a => !isNoneType a) with
        | [] => .ok (.null, fk, rg1)
        | a :: _ => genFieldPostNarrow gv fd a fk rg1
    else genFieldPostNarrow gv fd (.unionT args) fk rg
  | t => genFieldPostNarrow gv fd t fk rg

/-- The assembly loop over `model_class.model_fields` in declaration order
(core.py lines 163-292): each field contributes exactly one key. -/
def genModelFieldsWith (gv : GenFun) :
    List FieldDef → FakerState → RandState → GenRes (List (String × JVal))
  | [], fk, rg => .ok ([], fk, rg)
  | fd :: rest, fk, rg =>
    match genOneFieldWith gv fd fk rg with
    | .error e => .error e
    | .ok (v, fk', rg') =>
      match genModelFieldsWith gv rest fk' rg' with
      | .error e => .error e
      | .ok (ps, fk'', rg'') => .ok ((fd.fname, v) :: ps, fk'', rg'')

/-- `_generate_value_for_type` (core.py lines 295-468), with a recursion-depth
budget: CPython raises `RecursionError` when nested generation exceeds its
recursion limit, modelled by `fuel` running out. -/
def genValue (env : Env) : Nat → PyType → Option FieldInfo → FakerState → RandState → GenRes JVal
  | 0, _, _, _, _ => .error "RecursionError"
  | fuel + 1, t, fi, fk, rg =>
    match t with
    | .literalT vals =>
      if vals.isEmpty then .ok (.strV ("unsupported_type_empty_literal_" ++ pyTypeRepr t), fk, rg)
      else
        let (v, rg') := randomChoice vals .null rg
        .ok (v, fk, rg')
    | .enumT ename vals =>
      if vals.isEmpty then .ok (.strV ("unsupported_type_empty_enum_" ++ ename), fk, rg)
      else
        let (v, rg') := randomChoice vals .null rg
        .ok (v, fk, rg')
    | .unionT args =>
      if args.isEmpty then .ok (.strV ("unsupported_type_empty_union_" ++ pyTypeRepr t), fk, rg)
      else
        let (a, rg') := randomChoice args .noneT rg
        genValue env fuel a none fk rg'
    | .intT =>
      let (r, rg') := genInt (extractConstraints fi) rg
      .ok (.intV r, fk, rg')
    | .floatT =>
      let (v, rg') := genFloat rg
      .ok (v, fk, rg')
    | .strT =>
      match genStr (extractConstraints fi) fk rg with
      | .error e => .error e
      | .ok (s, fk', rg') => .ok (.strV s, fk', rg')
    | .boolT =>
      let (b, rg') := randomChoice [true, false] true rg
      .ok (.boolV b, fk, rg')
    | .uuidT =>
      let (s, fk') := fakerUuid4 fk
      .ok (.strV s, fk', rg)
    | .datetimeT =>
      let (s, fk') := fakerDatetimeIso fk
      .ok (.strV s, fk', rg)
    | .dateT =>
      let (s, fk') := fakerDateIso fk
      .ok (.strV s, fk', rg)
    | .timeT =>
      let (s, fk') := fakerTimeIso fk
      .ok (.strV s, fk', rg)
    | .modelT mn =>
      match envLookup env mn with
      | some md =>
        match genModelFieldsWith (fun t2 fi2 fk2 rg2 => genValue env fuel t2 fi2 fk2 rg2)
            md.fields fk rg with
        | .error e => .error e
        | .ok (ps, fk', rg') => .ok (.objV ps, fk', rg')
      | none => .ok (.strV ("unsupported_type_" ++ mn), fk, rg)
    | .anyT => .ok (.strV "any_value_placeholder", fk, rg)
    | .noneT => .ok (.strV ("unsupported_type_" ++ pyTypeRepr .noneT), fk, rg)
    | .listT it => .ok (.strV ("unsupported_type_" ++ pyTypeRepr (.listT it)), fk, rg)
    | .dictT vt => .ok (.strV ("unsupported_type_" ++ pyTypeRepr (.dictT vt)), fk, rg)
    | .customT nm => .ok (.strV ("unsupported_type_" ++ nm), fk, rg)
termination_by structural fuel _ _ _ _ => fuel

/-- The assembly loop instantiated with the real recursive generator. -/
def genModelFields (env : Env) (fuel : Nat) (fds : List FieldDef) (fk : FakerState)
    (rg : RandState) : GenRes (List (String × JVal)) :=
  genModelFieldsWith (fun t fi fk2 rg2 => genValue env fuel t fi fk2 rg2) fds fk rg

/-- `generate_fake_data_for_model` called at top level with no faker override
(core.py lines 66-83): when a seed is given, reseed the `random` module and build
a freshly seeded Faker, so neither ambient state is consumed. -/
def generate_fake_data_for_model (env : Env) (fuel : Nat) (m : ModelDef)
    (faker_locale : Option String) (seed : Option Int) (ambientRand : RandState)
    (ambientFakerEntropy : Nat) : GenRes (List (String × JVal)) :=
  let rg := match seed with | some n => randomSeed n | none => ambientRand
  let fk := getFakerInstance faker_locale seed ambientFakerEntropy
  genModelFields env fuel m.fields fk rg

/-- The `generate` command's batch loop (cli.py lines 80-95): `count` top-level
calls with the same model, locale and seed, threading the `random` module state
between calls; the first exception aborts the whole batch.  `ambientFk i` is the
entropy the `i`-th unseeded Faker construction would start from. -/
def cliGenerateLoop (env : Env) (fuel : Nat) (m : ModelDef) (faker_locale : Option String)
    (seed : Option Int) (ambientFk : Nat → Nat) :
    Nat → Nat → RandState → Except String (List (List (String × JVal)) × RandState)
  | 0, _, rg => .ok ([], rg)
  | k + 1, i, rg =>
    match generate_fake_data_for_model env fuel m faker_locale seed rg (ambientFk i) with
    | .error e => .error e
    | .ok (item, _, rg') =>
      match cliGenerateLoop env fuel m faker_locale seed ambientFk k (i + 1) rg' with
      | .error e => .error e
      | .ok (rest, rg'') => .ok (item :: rest, rg'')

/-- One stored instance: a field-name to value mapping with the declared keys. -/
abbrev Item : Type := List (String × JVal)

/-- `v is None`. -/
def JVal.isNull : JVal → Bool
  | .null => true
  | _ => false

/-- `item.get(k)`: the stored value, or Python `None` when the key is absent. -/
def pyGet (it : Item) (k : String) : JVal :=
  match it.find? (fun p => p.1 == k) with
  | some p => p.2
  | none => .null

/-- Python `str(v)` for the identifier values the server compares (`None`, bools,
ints, strings; floats are opaque tokens). -/
def pyStr : JVal → String
  | .null => "None"
  | .boolV true => "True"
  | .boolV false => "False"
  | .intV i => toString i
  | .floatV n => "float-" ++ toString n
  | .strV s => s
  | .arrV _ => "[...]"
  | .objV _ => "{...}"

/-- Decimal digit run: `none` unless the characters are one or more digits. -/
def parseDigits (cs : List Char) : Option Nat :=
  match cs with
  | [] => none
  | _ =>
    cs.foldl
      (fun acc? c =>
        match acc? with
        | none => none
        | some acc => if c.isDigit then some (acc * 10 + (c.toNat - 48)) else none)
      (some 0)

/-- Python `int(s)` on a route identifier: an optional minus sign followed by
decimal digits (the whitespace, plus-sign and underscore tolerance of `int()`
never arises in a route segment). -/
def parsePyInt (s : String) : Option Int :=
  match s.data with
  | '-' :: rest => (parseDigits rest).map (fun n => -(n : Int))
  | cs => (parseDigits cs).map (fun n => (n : Int))

/-- `"k" in model_class.model_fields`. -/
def hasField (m : ModelDef) (k : String) : Bool :=
  m.fields.any (fun f => f.fname == k)

/-- `model_class.model_fields[k].annotation`. -/
def annOf (m : ModelDef) (k : String) : Option PyType :=
  (m.fields.find? (fun f => f.fname == k)).map (fun f => f.ftype)

/-- Identifier-field resolution shared by the get/update/delete handlers
(server.py lines 120-123, 174-177, 212-215): `id` if declared, else `uuid`,
else positional only. -/
def resolveIdField (m : ModelDef) : Option String :=
  if hasField m "id" then some "id"
  else if hasField m "uuid" then some "uuid"
  else none

/-- `annotation is int`. -/
def annIsInt : Option PyType → Bool
  | some .intT => true
  | _ => false

/-- `annotation is uuid.UUID`. -/
def annIsUuid : Option PyType → Bool
  | some .uuidT => true
  | _ => false

/-- `_get_next_id` (server.py lines 17-26): 1 on an empty collection, else one plus
the running maximum (seeded at 0) over the items whose identifier value is an
integer greater than the running maximum.  (Stored identifier values under an
`int` annotation are genuine ints: pydantic validation rejects bools for int
fields, so CPython's bool-is-int corner cannot reach the store.) -/
def maxIdStep (idField : String) (acc : Int) (it : Item) : Int :=
  match pyGet it idField with
  | .intV v => if acc < v then v else acc
  | _ => acc

def getNextId (items : List Item) (idField : String) : Int :=
  match items with
  | [] => 1
  | _ =>
    let maxId := items.foldl (maxIdStep idField) 0
    maxId + 1

/-- `create_item` (server.py lines 150-168): when the model declares `id : int`
and the validated payload's `id` is null, auto-assign the next id; otherwise, when
it also declares `uuid : UUID` left null, fill it with a fresh UUID.  Appends the
item and returns (new store, created item, faker state). -/
def create_item (m : ModelDef) (items : List Item) (payload : Item)
    (fkNew : FakerState) : List Item × Item × FakerState :=
  let step :=
    if hasField m "id" ∧ annIsInt (annOf m "id") then
      if (pyGet payload "id").isNull then
        (dictSet payload "id" (.intV (getNextId items "id")), fkNew)
      else
        if hasField m "uuid" ∧ annIsUuid (annOf m "uuid") ∧ (pyGet payload "uuid").isNull then
          let (u, fk') := fakerUuid4 fkNew
          (dictSet payload "uuid" (.strV u), fk')
        else (payload, fkNew)
    else (payload, fkNew)
  (items ++ [step.1], step.1, step.2)

/-- Identifier match of the update/delete handlers (server.py lines 181-184,
219-222): `str(current_item.get(id_field)) == item_id_str`, with no skipping of
null identifiers. -/
def findIndexById (items : List Item) (idf : String) (itemIdStr : String) : Option Nat :=
  items.findIdx? (fun it => pyStr (pyGet it idf) == itemIdStr)

/-- Index-fallback resolution of the update/delete handlers (server.py lines
179-192, 217-230): match by identifier field first, else parse the segment as a
zero-based index into the collection. -/
def resolveIndex (m : ModelDef) (items : List Item) (itemIdStr : String) : Option Nat :=
  let byId :=
    match resolveIdField m with
    | some idf => findIndexById items idf itemIdStr
    | none => none
  match byId with
  | some i => some i
  | none =>
    match parsePyInt itemIdStr with
    | some idx => if 0 ≤ idx ∧ idx < items.length then some idx.toNat else none
    | none => none

/-- `get_item` (server.py lines 115-148): identifier match (skipping items whose
identifier is null), then positional fallback; `none` is the 404 response. -/
def get_item (m : ModelDef) (items : List Item) (itemIdStr : String) : Option Item :=
  let found :=
    match resolveIdField m with
    | some idf =>
      items.find? (fun it =>
        match pyGet it idf with
        | .null => false
        | v => pyStr v == itemIdStr)
    | none => none
  match found with
  | some it => some it
  | none =>
    match parsePyInt itemIdStr with
    | some idx => if 0 ≤ idx ∧ idx < items.length then (items.drop idx.toNat).head? else none
    | none => none

/-- `update_item` (server.py lines 170-206): resolve the item, replace it with the
validated payload, but copy the original identifier back when it was non-null;
`none` is the 404 response.  Returns (new store, stored-and-returned item). -/
def update_item (m : ModelDef) (items : List Item) (itemIdStr : String)
    (payload : Item) : Option (List Item × Item) :=
  match resolveIndex m items itemIdStr with
  | none => none
  | some i =>
    let orig := (items.drop i).headD []
    let updated :=
      match resolveIdField m with
      | some idf =>
        match pyGet orig idf with
        | .null => payload
        | v => dictSet payload idf v
      | none => payload
    some (items.set i updated, updated)

/-- `delete_item` (server.py lines 208-239): resolve the item and remove it;
`none` is the 404 response. -/
def delete_item (m : ModelDef) (items : List Item) (itemIdStr : String) :
    Option (List Item) :=
  match resolveIndex m items itemIdStr with
  | none => none
  | some i => some (items.eraseIdx i)

/-! ## Helper lemmas -/

/-- A seeded top-level call ignores both ambient states: its whole result is a
function of the environment, fuel, model, locale and seed. -/
theorem seededCallConst (env : Env) (fuel : Nat) (m : ModelDef) (locale : Option String)
    (n : Int) (r1 : RandState) (a1 : Nat) (r2 : RandState) (a2 : Nat) :
    generate_fake_data_for_model env fuel m locale (some n) r1 a1 =
      generate_fake_data_for_model env fuel m locale (some n) r2 a2 := rfl

/-- The assembly loop emits exactly the declared field names, in declaration
order, whatever the callback generator does. -/
theorem genModelFieldsWith_keys (gv : GenFun) :
    ∀ (fds : List FieldDef) (fk : FakerState) (rg : RandState) (ps : List (String × JVal))
      (fk' : FakerState) (rg' : RandState),
      genModelFieldsWith gv fds fk rg = .ok (ps, fk', rg') →
      ps.map Prod.fst = fds.map FieldDef.fname := by
  intro fds
  induction fds with
  | nil =>
    intro fk rg ps fk' rg' h
    simp only [genModelFieldsWith] at h
    cases h
    rfl
  | cons fd rest ih =>
    intro fk rg ps fk' rg' h
    simp only [genModelFieldsWith] at h
    cases h1 : genOneFieldWith gv fd fk rg with
    | error e => rw [h1] at h; cases h
    | ok trip =>
      obtain ⟨v, fk1, rg1⟩ := trip
      rw [h1] at h
      dsimp only at h
      cases h2 : genModelFieldsWith gv rest fk1 rg1 with
      | error e => rw [h2] at h; cases h
      | ok trip2 =>
        obtain ⟨ps2, fk2, rg2⟩ := trip2
        rw [h2] at h
        dsimp only at h
        cases h
        simpa using ih fk1 rg1 ps2 _ _ h2

/-! ## Claims -/

/-- C1: for every model, locale and integer seed, two independent top-level calls
of `generate_fake_data_for_model` (each seeding afresh, no faker override) return
equal results: the output is a function of (model, locale, seed) alone, whatever
random-module state or Faker entropy each call starts from. -/
theorem c1_seeded_determinism (env : Env) (fuel : Nat) (m : ModelDef)
    (locale : Option String) (n : Int) (r1 : RandState) (a1 : Nat) (r2 : RandState)
    (a2 : Nat) :
    generate_fake_data_for_model env fuel m locale (some n) r1 a1 =
      generate_fake_data_for_model env fuel m locale (some n) r2 a2 :=
  seededCallConst env fuel m locale n r1 a1 r2 a2

/-- C2: whenever a top-level generation succeeds, the produced mapping's key list
is exactly the model's declared field names in declaration order — every field is
present (a nulled optional contributes its key with a null value) and there are
no extra keys. -/
theorem c2_field_completeness (env : Env) (fuel : Nat) (m : ModelDef)
    (locale : Option String) (seed : Option Int) (ar : RandState) (af : Nat)
    (ps : List (String × JVal)) (fk' : FakerState) (rg' : RandState)
    (h : generate_fake_data_for_model env fuel m locale seed ar af = .ok (ps, fk', rg')) :
    ps.map Prod.fst = m.fields.map FieldDef.fname := by
  exact genModelFieldsWith_keys _ m.fields _ _ ps fk' rg' h

/-- Every instance a seeded batch emits equals the canonical seeded output. -/
theorem cliLoop_elems (env : Env) (fuel : Nat) (m : ModelDef) (locale : Option String)
    (n : Int) (af : Nat → Nat) :
    ∀ (k i : Nat) (rg : RandState) (items : List (List (String × JVal))) (s : RandState),
      cliGenerateLoop env fuel m locale (some n) af k i rg = .ok (items, s) →
      items.length = k ∧
        ∀ x ∈ items, ∃ fk2 rg2,
          generate_fake_data_for_model env fuel m locale (some n) (RandState.mk 0) 0 =
            .ok (x, fk2, rg2) := by
  intro k
  induction k with
  | zero =>
    intro i rg items s h
    simp only [cliGenerateLoop] at h
    cases h
    simp
  | succ k ih =>
    intro i rg items s h
    simp only [cliGenerateLoop] at h
    cases h1 : generate_fake_data_for_model env fuel m locale (some n) rg (af i) with
    | error e => rw [h1] at h; cases h
    | ok trip =>
      obtain ⟨item, fk1, rg1⟩ := trip
      rw [h1] at h
      dsimp only at h
      cases h2 : cliGenerateLoop env fuel m locale (some n) af k (i + 1) rg1 with
      | error e => rw [h2] at h; cases h
      | ok pr =>
        obtain ⟨rest, s2⟩ := pr
        rw [h2] at h
        dsimp only at h
        cases h
        obtain ⟨hlen, helems⟩ := ih (i + 1) rg1 rest _ h2
        refine ⟨by simp [hlen], ?_⟩
        intro x hx
        rcases List.mem_cons.mp hx with hx1 | hx2
        · subst hx1
          refine ⟨fk1, rg1, ?_⟩
          rw [seededCallConst env fuel m locale n (RandState.mk 0) 0 rg (af i)]
          exact h1
        · exact helems x hx2

/-- C10: with a non-null seed, every top-level call reseeds afresh, so the batch
result ignores the random state left by previous calls and the Faker entropy of
each iteration, and a `--seed --count k` batch that succeeds emits exactly `k`
pairwise-identical instances. -/
theorem c10_seeded_batch_identical (env : Env) (fuel : Nat) (m : ModelDef)
    (locale : Option String) (n : Int) (af af' : Nat → Nat) (k i i' : Nat)
    (rg rg' : RandState) (items : List (List (String × JVal))) (s : RandState)
    (h : cliGenerateLoop env fuel m locale (some n) af k i rg = .ok (items, s)) :
    items.length = k ∧ (∀ x ∈ items, ∀ y ∈ items, x = y) ∧
      (cliGenerateLoop env fuel m locale (some n) af k i rg).map Prod.fst =
        (cliGenerateLoop env fuel m locale (some n) af' k i' rg').map Prod.fst := by
  obtain ⟨hlen, he⟩ := cliLoop_elems env fuel m locale n af k i rg items s h
  refine ⟨hlen, ?_, ?_⟩
  · intro x hx y hy
    obtain ⟨f1, r1, e1⟩ := he x hx
    obtain ⟨f2, r2, e2⟩ := he y hy
    rw [e1] at e2
    cases e2
    rfl
  · clear h hlen he
    induction k generalizing i i' rg rg' with
    | zero => rfl
    | succ k ih =>
      simp only [cliGenerateLoop]
      rw [seededCallConst env fuel m locale n rg' (af' i') rg (af i)]
      cases hg : generate_fake_data_for_model env fuel m locale (some n) rg (af i) with
      | error e => rfl
      | ok trip =>
        obtain ⟨item, fk1, rg1⟩ := trip
        dsimp only
        have hrec := ih (i + 1) (i' + 1) rg1 rg1
        cases hA : cliGenerateLoop env fuel m locale (some n) af k (i + 1) rg1 with
        | error e =>
          rw [hA] at hrec
          cases hB : cliGenerateLoop env fuel m locale (some n) af' k (i' + 1) rg1 with
          | error e2 =>
            rw [hB] at hrec
            simp only [Except.map] at hrec
            cases hrec
            rfl
          | ok pr2 => rw [hB] at hrec; cases hrec
        | ok pr =>
          obtain ⟨restA, sA⟩ := pr
          rw [hA] at hrec
          cases hB : cliGenerateLoop env fuel m locale (some n) af' k (i' + 1) rg1 with
          | error e2 => rw [hB] at hrec; cases hrec
          | ok pr2 =>
            obtain ⟨restB, sB⟩ := pr2
            rw [hB] at hrec
            simp only [Except.map] at hrec ⊢
            cases hrec
            rfl

/-- A two-field demonstration model: a plain int and an optional int. -/
def demoModel : ModelDef :=
  ModelDef.mk "Demo" [FieldDef.mk "num" .intT {}, FieldDef.mk "opt" (.unionT [.intT, .noneT]) {}]

/-- Witness for C2: a concrete successful generation (seed 3) whose key list is
the declared names, the nulled optional field present with value null. -/
theorem c2_field_completeness_witness :
    generate_fake_data_for_model [] 5 demoModel none (some 3) (RandState.mk 0) 0 =
      .ok ([("num", .intV 397), ("opt", .null)], FakerState.mk none 6, RandState.mk 1672197364) ∧
    ([("num", JVal.intV 397), ("opt", JVal.null)]).map Prod.fst =
      demoModel.fields.map FieldDef.fname :=
  ⟨rfl, c2_field_completeness [] 5 demoModel none (some 3) (RandState.mk 0) 0
    [("num", .intV 397), ("opt", .null)] (FakerState.mk none 6) (RandState.mk 1672197364) rfl⟩

/-- Witness for C10: a concrete seeded two-instance batch is two identical
instances. -/
theorem c10_seeded_batch_identical_witness :
    ([[("num", JVal.intV 397), ("opt", JVal.null)],
      [("num", JVal.intV 397), ("opt", JVal.null)]] :
        List (List (String × JVal))).length = 2 ∧
      (∀ x ∈ ([[("num", JVal.intV 397), ("opt", JVal.null)],
        [("num", JVal.intV 397), ("opt", JVal.null)]] : List (List (String × JVal))),
        ∀ y ∈ ([[("num", JVal.intV 397), ("opt", JVal.null)],
          [("num", JVal.intV 397), ("opt", JVal.null)]] : List (List (String × JVal))),
        x = y) ∧
      (cliGenerateLoop [] 5 demoModel none (some 3) (fun _ => 0) 2 0 (RandState.mk 0)).map
          Prod.fst =
        (cliGenerateLoop [] 5 demoModel none (some 3) (fun _ => 1) 2 4 (RandState.mk 99)).map
          Prod.fst :=
  c10_seeded_batch_identical [] 5 demoModel none 3 (fun _ => 0) (fun _ => 1) 2 0 4
    (RandState.mk 0) (RandState.mk 99)
    [[("num", JVal.intV 397), ("opt", JVal.null)],
     [("num", JVal.intV 397), ("opt", JVal.null)]]
    (RandState.mk 1672197364) rfl

/-- The narrowed low bound is never negative (it starts from the default 0 and is
only raised). -/
theorem clampLow_nonneg (e : Extracted) : 0 ≤ clampLow e := by
  unfold clampLow
  cases e.ge <;> cases e.gt <;> simp <;> try omega

/-- The smallest multiple of `m` at or above `a` (computed as
`(a + m - 1) / m * m`) is at or above `a`. -/
theorem le_ceilMul {m : Int} (hm : 0 < m) (a : Int) : a ≤ (a + m - 1) / m * m := by
  have h1 := Int.ediv_add_emod (a + m - 1) m
  have h2 := Int.emod_nonneg (a + m - 1) (by omega : m ≠ 0)
  have h3 := Int.emod_lt_of_pos (a + m - 1) hm
  have h4 : m * ((a + m - 1) / m) = (a + m - 1) / m * m := by ring
  omega

/-- Minimality of the smallest multiple at or above `a`: every multiple `w ≥ a`
is at or above it. -/
theorem ceilMul_le {m w : Int} (hm : 0 < m) (a : Int) (hw : m ∣ w) (haw : a ≤ w) :
    (a + m - 1) / m * m ≤ w := by
  obtain ⟨k, hk⟩ := hw
  have h1 := Int.ediv_add_emod (a + m - 1) m
  have h2 := Int.emod_nonneg (a + m - 1) (by omega : m ≠ 0)
  have hq : m * ((a + m - 1) / m) < m * (k + 1) := by
    have hx : m * (k + 1) = m * k + m := by ring
    omega
  have hqk : (a + m - 1) / m ≤ k := by
    have := lt_of_mul_lt_mul_left hq (by omega : (0 : Int) ≤ m)
    omega
  calc (a + m - 1) / m * m ≤ k * m := by
        exact mul_le_mul_of_nonneg_right hqk (by omega)
    _ = w := by rw [hk]; ring

/-- The largest multiple of `m` at or below `a` (computed as `a / m * m`) is at
or below `a`. -/
theorem floorMul_le {m : Int} (hm : 0 < m) (a : Int) : a / m * m ≤ a := by
  have h1 := Int.ediv_add_emod a m
  have h2 := Int.emod_nonneg a (by omega : m ≠ 0)
  have h4 : m * (a / m) = a / m * m := by ring
  omega

/-- Maximality of the largest multiple at or below `a`. -/
theorem le_floorMul {m w : Int} (hm : 0 < m) (a : Int) (hw : m ∣ w) (hwa : w ≤ a) :
    w ≤ a / m * m := by
  obtain ⟨k, hk⟩ := hw
  have h1 := Int.ediv_add_emod a m
  have h3 := Int.emod_lt_of_pos a hm
  have hq : m * k < m * (a / m + 1) := by
    have hx : m * (a / m + 1) = m * (a / m) + m := by ring
    omega
  have hqk : k ≤ a / m := by
    have := lt_of_mul_lt_mul_left hq (by omega : (0 : Int) ≤ m)
    omega
  calc w = k * m := by rw [hk]; ring
    _ ≤ a / m * m := mul_le_mul_of_nonneg_right hqk (by omega)

/-- When the narrowed range contains a multiple of a positive `multiple_of`, the
int branch draws exactly such a multiple inside the range (and does not raise). -/
theorem genIntCore_multiple (e : Extracted) (rg : RandState) (m v : Int)
    (hm : e.multiple_of = some m) (hm0 : 0 < m) (hlo : clampLow e ≤ v)
    (hhi : v ≤ clampHigh e) (hdvd : m ∣ v) :
    ∃ r rg', genIntCore e rg = .ok (r, rg') ∧ clampLow e ≤ r ∧ r ≤ clampHigh e ∧ m ∣ r := by
  have hlo0 : 0 ≤ clampLow e := clampLow_nonneg e
  have hle : clampLow e ≤ clampHigh e := le_trans hlo hhi
  have haMin1 : clampLow e ≤ (clampLow e + m - 1) / m * m := le_ceilMul hm0 _
  have haMin2 : m ∣ (clampLow e + m - 1) / m * m := dvd_mul_left m _
  have haMinv : (clampLow e + m - 1) / m * m ≤ v := ceilMul_le hm0 _ hdvd hlo
  have haMax1 : clampHigh e / m * m ≤ clampHigh e := floorMul_le hm0 _
  have haMax2 : m ∣ clampHigh e / m * m := dvd_mul_left m _
  have hvMax : v ≤ clampHigh e / m * m := le_floorMul hm0 _ hdvd hhi
  have hsd : m ∣ (clampHigh e / m * m - (clampLow e + m - 1) / m * m) :=
    dvd_sub haMax2 haMin2
  have hstep : (clampHigh e / m * m - (clampLow e + m - 1) / m * m) / m * m =
      clampHigh e / m * m - (clampLow e + m - 1) / m * m :=
    Int.ediv_mul_cancel hsd
  have hN0 : 0 ≤ (clampHigh e / m * m - (clampLow e + m - 1) / m * m) / m :=
    Int.ediv_nonneg (by omega) (by omega)
  have hfd : ∀ a : Int, a.fdiv m = a / m := fun a => Int.fdiv_eq_ediv a (le_of_lt hm0)
  unfold genIntCore
  rw [hm]
  simp only [hfd]
  simp only [if_pos hm0, if_pos hlo0,
    if_neg (by omega : ¬(clampHigh e < clampLow e)),
    if_neg (by push_neg; intro _; omega :
      ¬((clampLow e + m - 1) / m * m < clampLow e ∧ clampLow e < 0)),
    if_neg (by omega :
      ¬(clampHigh e / m * m < (clampLow e + m - 1) / m * m))]
  unfold randomRandint
  rw [if_neg (by omega :
    ¬((clampHigh e / m * m - (clampLow e + m - 1) / m * m) / m < 0))]
  rcases hpair : randNext rg with ⟨W, rgW⟩
  dsimp only
  simp only [zero_add]
  set aMin := (clampLow e + m - 1) / m * m with haMindef
  set aMax := clampHigh e / m * m with haMaxdef
  set N := (aMax - aMin) / m with hN
  set step : Int := Int.ofNat (W % (N + 1 - 0).toNat) with hstepdef
  have hNm : N * m = aMax - aMin := hstep
  clear_value step N aMax aMin
  clear hN hstep hfd haMindef haMaxdef hpair
  have hstep0 : 0 ≤ step := by rw [hstepdef]; exact Int.ofNat_nonneg _
  have hstepN : step ≤ N := by
    have hpos : 0 < (N + 1 - 0).toNat := by omega
    have h1 := Nat.mod_lt W hpos
    have h2 : step < Int.ofNat ((N + 1 - 0).toNat) := by
      rw [hstepdef]
      exact Int.ofNat_lt.mpr h1
    have h3 : Int.ofNat ((N + 1 - 0).toNat) = N + 1 := by
      rw [Int.ofNat_eq_natCast, Int.toNat_of_nonneg (by omega : (0 : Int) ≤ N + 1 - 0)]
      omega
    omega
  have hsm0 : 0 ≤ step * m := mul_nonneg hstep0 (by omega)
  have hsmN : step * m ≤ N * m := mul_le_mul_of_nonneg_right hstepN (by omega)
  refine ⟨_, _, rfl, ?_, ?_, ?_⟩
  · linarith [haMin1, hsm0]
  · linarith [hsmN, hNm, haMax1]
  · exact dvd_add haMin2 (dvd_mul_left m step)

/-- C4: for an int field whose narrowed range (defaults [0, 1000] intersected with
`ge`, `gt + 1`, `le`, `lt - 1`) contains a multiple of a positive `multiple_of`,
the generated value is such a multiple inside the range, for every random state —
in particular `gt=10, le=100, multiple_of=10` always yields a multiple of 10 in
(10, 100]. -/
theorem c4_int_multiple_of (env : Env) (fuel : Nat) (fi : FieldInfo) (fk : FakerState)
    (rg : RandState) (m v : Int)
    (hm : (extractConstraints (some fi)).multiple_of = some m) (hm0 : 0 < m)
    (hlo : clampLow (extractConstraints (some fi)) ≤ v)
    (hhi : v ≤ clampHigh (extractConstraints (some fi))) (hdvd : m ∣ v) :
    ∃ r rg', genValue env (fuel + 1) .intT (some fi) fk rg = .ok (.intV r, fk, rg') ∧
      clampLow (extractConstraints (some fi)) ≤ r ∧
      r ≤ clampHigh (extractConstraints (some fi)) ∧ m ∣ r := by
  obtain ⟨r, rg', hcore, h1, h2, h3⟩ :=
    genIntCore_multiple (extractConstraints (some fi)) rg m v hm hm0 hlo hhi hdvd
  refine ⟨r, rg', ?_, h1, h2, h3⟩
  simp only [genValue, genInt, hcore]

/-- Witness model field for C4: `value: int = Field(gt=10, le=100, multiple_of=10)`. -/
def fiC4 : FieldInfo :=
  { metadata := [{ gt := some 10, le := some 100, multiple_of := some 10 }] }

/-- Witness for C4 at a concrete state: the constrained draw is a multiple of 10
in (10, 100]. -/
theorem c4_int_multiple_of_witness :
    ∃ r rg', genValue [] 4 .intT (some fiC4) (FakerState.mk none 0) (RandState.mk 5) =
        .ok (.intV r, FakerState.mk none 0, rg') ∧
      clampLow (extractConstraints (some fiC4)) ≤ r ∧
      r ≤ clampHigh (extractConstraints (some fiC4)) ∧ (10 : Int) ∣ r :=
  c4_int_multiple_of [] 3 fiC4 (FakerState.mk none 0) (RandState.mk 5) 10 20
    (by rfl) (by decide) (by decide) (by decide) (by decide)

/-- An over-constrained narrowed range never raises: the int branch returns
exactly the narrowed low bound (consuming one draw). -/
theorem genIntCore_overconstrained (e : Extracted) (rg : RandState)
    (h : clampHigh e < clampLow e) :
    genIntCore e rg = .ok (clampLow e, (randNext rg).2) := by
  have hlo0 : 0 ≤ clampLow e := clampLow_nonneg e
  have hone : clampLow e + 1 - clampLow e = 1 := by omega
  have hok : randomRandint (clampLow e) (clampLow e) rg = .ok (clampLow e, (randNext rg).2) := by
    unfold randomRandint
    rw [if_neg (by omega : ¬(clampLow e < clampLow e))]
    rcases hpair : randNext rg with ⟨W, rgW⟩
    simp [hone]
  simp only [genIntCore]
  rw [if_pos h]
  cases hmo : e.multiple_of with
  | none => exact hok
  | some m =>
    dsimp only
    by_cases hm0 : 0 < m
    · rw [if_pos hm0]
      have hfd : ∀ a : Int, a.fdiv m = a / m := fun a => Int.fdiv_eq_ediv a (le_of_lt hm0)
      simp only [hfd]
      rw [if_pos hlo0]
      rw [if_neg (by push_neg; intro _; omega :
        ¬((clampLow e + m - 1) / m * m < clampLow e ∧ clampLow e < 0))]
      have haMin : clampLow e ≤ (clampLow e + m - 1) / m * m := le_ceilMul hm0 _
      have haMax : clampLow e / m * m ≤ clampLow e := floorMul_le hm0 _
      by_cases hcmp : clampLow e / m * m < (clampLow e + m - 1) / m * m
      · rw [if_pos hcmp]
        exact hok
      · rw [if_neg hcmp]
        have heqMin : (clampLow e + m - 1) / m * m = clampLow e := by omega
        have heqMax : clampLow e / m * m = clampLow e := by omega
        rw [heqMin, heqMax]
        have hzero : (clampLow e - clampLow e) / m = 0 := by
          rw [sub_self, Int.zero_ediv]
        rw [hzero]
        unfold randomRandint
        rw [if_neg (by omega : ¬((0 : Int) < 0))]
        rcases hpair : randNext rg with ⟨W, rgW⟩
        simp
    · rw [if_neg hm0]
      exact hok

/-- C5: for an int field whose narrowed low bound exceeds the narrowed high
bound, generation does not raise and returns exactly the narrowed low bound. -/
theorem c5_int_overconstrained (env : Env) (fuel : Nat) (fi : FieldInfo)
    (fk : FakerState) (rg : RandState)
    (h : clampHigh (extractConstraints (some fi)) < clampLow (extractConstraints (some fi))) :
    genIntCore (extractConstraints (some fi)) rg =
        .ok (clampLow (extractConstraints (some fi)), (randNext rg).2) ∧
      genValue env (fuel + 1) .intT (some fi) fk rg =
        .ok (.intV (clampLow (extractConstraints (some fi))), fk, (randNext rg).2) := by
  have hcore := genIntCore_overconstrained (extractConstraints (some fi)) rg h
  refine ⟨hcore, ?_⟩
  simp only [genValue, genInt, hcore]

/-- Witness model field for C5: `value: int = Field(ge=2000, le=100)` — low bound
2000 exceeds high bound 100. -/
def fiC5 : FieldInfo :=
  { metadata := [{ ge := some 2000, le := some 100 }] }

/-- Witness for C5 at a concrete state: the draw collapses to the low bound
2000. -/
theorem c5_int_overconstrained_witness :
    genIntCore (extractConstraints (some fiC5)) (RandState.mk 5) =
        .ok (2000, (randNext (RandState.mk 5)).2) ∧
      genValue [] 3 .intT (some fiC5) (FakerState.mk none 0) (RandState.mk 5) =
        .ok (.intV 2000, FakerState.mk none 0, (randNext (RandState.mk 5)).2) :=
  c5_int_overconstrained [] 2 fiC5 (FakerState.mk none 0) (RandState.mk 5) (by decide)

/-- `random.randint(a, a)` returns `a` (one draw, no exception). -/
theorem randomRandint_self (a : Int) (rg : RandState) :
    randomRandint a a rg = .ok (a, (randNext rg).2) := by
  unfold randomRandint
  rw [if_neg (by omega : ¬(a < a))]
  rcases hpair : randNext rg with ⟨W, rgW⟩
  have hone : a + 1 - a = 1 := by omega
  simp [hone]

/-- The list-item loop produces exactly the requested number of items when it
succeeds. -/
theorem genItemsWith_length (gv : GenFun) (t : PyType) :
    ∀ (n : Nat) (fk : FakerState) (rg : RandState) (vs : List JVal) (fk' : FakerState)
      (rg' : RandState),
      genItemsWith gv t n fk rg = .ok (vs, fk', rg') → vs.length = n := by
  intro n
  induction n with
  | zero =>
    intro fk rg vs fk' rg' h
    simp only [genItemsWith] at h
    cases h
    rfl
  | succ n ih =>
    intro fk rg vs fk' rg' h
    simp only [genItemsWith] at h
    cases h1 : gv t none fk rg with
    | error e => rw [h1] at h; cases h
    | ok trip =>
      obtain ⟨v, fk1, rg1⟩ := trip
      rw [h1] at h
      dsimp only at h
      cases h2 : genItemsWith gv t n fk1 rg1 with
      | error e => rw [h2] at h; cases h
      | ok trip2 =>
        obtain ⟨vs2, fk2, rg2⟩ := trip2
        rw [h2] at h
        dsimp only at h
        cases h
        simpa using ih fk1 rg1 vs2 _ _ h2

/-- A `pystr` draw with equal bounds has exactly that length. -/
theorem fakerPystr_self_len (n : Nat) (f : FakerState) :
    (fakerPystr n n f).1.length = n := by
  unfold fakerPystr
  rcases hpair : fakerNext f with ⟨v, f'⟩
  simp [Nat.mod_one]

/-- C6: when the extracted `min_length` exceeds the extracted `max_length` after
clamping negatives to zero, generation does not raise on the bounds: the str
branch returns a string of exactly the clamped `max_length` (the weaker minimum
forced down to it), and the list branch draws exactly the clamped `min_length`
items (the weaker maximum forced up to it). -/
theorem c6_length_reconciliation (e : Extracted) (fk : FakerState) (rg : RandState)
    (gv : GenFun) (fd : FieldDef) (itemT : PyType) (fk2 : FakerState) (rg2 : RandState)
    (val : JVal) (fk2' : FakerState) (rg2' : RandState) :
    (clampedMaxLen e < clampedMinLen e →
      ∃ s fk', genStr e fk rg = .ok (s, fk', rg) ∧
        s.length = (clampedMaxLen e).toNat) ∧
    (clampedListMax fd.info.metadata < clampedListMin fd.info.metadata →
      genDispatch gv fd (.listT itemT) fk2 rg2 = .ok (val, fk2', rg2') →
      ∃ xs, val = .arrV xs ∧ xs.length = (clampedListMin fd.info.metadata).toNat) := by
  constructor
  · intro h
    have hM0 : 0 ≤ clampedMaxLen e := by
      simp only [clampedMaxLen]
      split <;> omega
    unfold genStr
    simp only [strBounds]
    rw [if_pos h]
    rw [if_pos (by exact beq_self_eq_true _ : (clampedMaxLen e == clampedMaxLen e) = true)]
    by_cases hpos : 0 < clampedMaxLen e
    · rw [if_pos hpos]
      rcases hps : fakerPystr (clampedMaxLen e).toNat (clampedMaxLen e).toNat fk with ⟨s, fk'⟩
      refine ⟨s, fk', rfl, ?_⟩
      have := fakerPystr_self_len (clampedMaxLen e).toNat fk
      rw [hps] at this
      exact this
    · rw [if_neg hpos]
      refine ⟨"", fk, rfl, ?_⟩
      have : clampedMaxLen e = 0 := by omega
      rw [this]
      rfl
  · intro h hok
    simp only [genDispatch] at hok
    rw [if_pos h] at hok
    rw [randomRandint_self (clampedListMin fd.info.metadata) rg2] at hok
    dsimp only at hok
    cases hitems : genItemsWith gv itemT (clampedListMin fd.info.metadata).toNat fk2
        (randNext rg2).2 with
    | error e2 => rw [hitems] at hok; cases hok
    | ok trip =>
      obtain ⟨xs, fk3, rg3⟩ := trip
      rw [hitems] at hok
      dsimp only at hok
      cases hok
      exact ⟨xs, rfl, genItemsWith_length gv itemT _ _ _ xs _ _ hitems⟩

/-- Witness extracted constraints for C6's string part: `min_length=5,
max_length=2`. -/
def eC6 : Extracted := { min_length := some 5, max_length := some 2 }

/-- Witness list field for C6's list part: `things: list[int] =
Field(min_length=4, max_length=2)`. -/
def fdC6 : FieldDef :=
  FieldDef.mk "things" (.listT .intT)
    { metadata := [{ min_length := some 4, max_length := some 2 }] }

/-- Witness for C6 at concrete states: the string comes out at the clamped
maximum length 2 and the list at the clamped minimum count 4, neither raising. -/
theorem c6_length_reconciliation_witness :
    (∃ s fk', genStr eC6 (FakerState.mk none 3) (RandState.mk 9) = .ok (s, fk', RandState.mk 9) ∧
      s.length = (clampedMaxLen eC6).toNat) ∧
    (∃ xs, JVal.arrV [.intV 562, .intV 538, .intV 294, .intV 108] = .arrV xs ∧
      xs.length = (clampedListMin fdC6.info.metadata).toNat) :=
  ⟨(c6_length_reconciliation eC6 (FakerState.mk none 3) (RandState.mk 9)
      (fun t fi fk rg => genValue [] 3 t fi fk rg) fdC6 .intT (FakerState.mk none 3)
      (RandState.mk 9) (.arrV [.intV 562, .intV 538, .intV 294, .intV 108])
      (FakerState.mk none 3) (RandState.mk 1448485146)).1 (by decide),
   (c6_length_reconciliation eC6 (FakerState.mk none 3) (RandState.mk 9)
      (fun t fi fk rg => genValue [] 3 t fi fk rg) fdC6 .intT (FakerState.mk none 3)
      (RandState.mk 9) (.arrV [.intV 562, .intV 538, .intV 294, .intV 108])
      (FakerState.mk none 3) (RandState.mk 1448485146)).2 (by decide) rfl⟩

/-- The union handling that C3 describes, built to the claim's words for
comparison with the code: a union whose non-null alternatives number two or more
is a uniform random choice among the FULL alternative set (no null-suppression),
recursing into the chosen alternative; only a union with exactly one non-null
alternative plus None is the optional case (50% null, else the narrowed inner
type). -/
def claimUnionGen (env : Env) (fuel : Nat) (args : List PyType) (fk : FakerState)
    (rg : RandState) : GenRes JVal :=
  let nonNull := args.filter (fun a => !isNoneType a)
  if nonNull.length == 1 ∧ args.any isNoneType then
    let (r, rg1) := randomRandom rg
    if r < 500000 then .ok (.null, fk, rg1)
    else genValue env fuel (nonNull.headD .noneT) none fk rg1
  else
    let (a, rg1) := randomChoice args .noneT rg
    genValue env fuel a none fk rg1

/-- Witness field for C3: a field annotated `int | str | None` — a union with two
non-null alternatives and a null marker. -/
def fdMixed : FieldDef := FieldDef.mk "mixed" (.unionT [.intT, .strT, .noneT]) {}

set_option maxRecDepth 8000 in
/-- Counterexample for C3: on the field `mixed: int | str | None` (two non-null
alternatives), the code treats the union as Optional and, when the null coin
fails, always generates from the FIRST non-null alternative (an int here), while
the claim's uniform choice among the full alternative set picks the str
alternative at this very state — the two behaviors produce values of different
kinds at the same input. -/
theorem c3_counterexample :
    genOneFieldWith (fun t fi fk rg => genValue [] 5 t fi fk rg) fdMixed
        (FakerState.mk none 0) (RandState.mk 2) =
      .ok (.intV 332, FakerState.mk none 0, RandState.mk 1495354192) ∧
    claimUnionGen [] 5 [.intT, .strT, .noneT] (FakerState.mk none 0) (RandState.mk 2) =
      .ok (.strV "cccccc", FakerState.mk none 1, RandState.mk 671064393) ∧
    JVal.intV 332 ≠ JVal.strV "cccccc" :=
  ⟨rfl, rfl, fun hcontra => JVal.noConfusion hcontra⟩

/-- C3 (amended): a union containing a None alternative is treated as the
optional case whatever the number of non-null alternatives — 50% chance of null,
otherwise the FIRST non-null alternative becomes the generation type (the other
alternatives are never chosen at field level); only a union with no None
alternative reaches `_generate_value_for_type`'s union branch, a uniform random
choice among the full alternative set that recurses into the chosen
alternative. -/
theorem c3_union_with_none_is_optional (gv : GenFun) (fd : FieldDef)
    (args : List PyType) (fk : FakerState) (rg : RandState) (env : Env) (fuel : Nat)
    (fi : Option FieldInfo) (hann : fd.ftype = .unionT args) :
    (args.any isNoneType = true →
      genOneFieldWith gv fd fk rg =
        (let p := randomRandom rg
         if p.1 < 500000 then .ok (.null, fk, p.2)
         else
           match args.filter (fun a => !isNoneType a) with
           | [] => .ok (.null, fk, p.2)
           | a :: _ => genFieldPostNarrow gv fd a fk p.2)) ∧
    (args.any isNoneType = false →
      genOneFieldWith gv fd fk rg = genFieldPostNarrow gv fd (.unionT args) fk rg) ∧
    (args.isEmpty = false →
      genValue env (fuel + 1) (.unionT args) fi fk rg =
        (let q := randomChoice args .noneT rg
         genValue env fuel q.1 none fk q.2)) := by
  refine ⟨?_, ?_, ?_⟩
  · intro hnone
    rcases hr : randomRandom rg with ⟨r, rg1⟩
    simp only [genOneFieldWith, hann, hnone, hr, if_true]
  · intro hnone
    simp only [genOneFieldWith, hann, hnone, Bool.false_eq_true, if_false]
  · intro hne
    rcases hq : randomChoice args (.noneT : PyType) rg with ⟨a, rg1⟩
    simp only [genValue, hne, Bool.false_eq_true, if_false, hq]

/-- Witness field for the no-None side of C3's amended claim: `pair: int | str`. -/
def fdPair : FieldDef := FieldDef.mk "pair" (.unionT [.intT, .strT]) {}

/-- Witness for the amended C3 at concrete inputs: the with-None union follows
the optional path and the no-None union follows the uniform-choice path. -/
theorem c3_union_with_none_is_optional_witness :
    (genOneFieldWith (fun t fi fk rg => genValue [] 5 t fi fk rg) fdMixed
        (FakerState.mk none 0) (RandState.mk 2) =
      (let p := randomRandom (RandState.mk 2)
       if p.1 < 500000 then .ok (.null, FakerState.mk none 0, p.2)
       else
         match ([PyType.intT, .strT, .noneT]).filter (fun a => !isNoneType a) with
         | [] => .ok (.null, FakerState.mk none 0, p.2)
         | a :: _ =>
           genFieldPostNarrow (fun t fi fk rg => genValue [] 5 t fi fk rg) fdMixed a
             (FakerState.mk none 0) p.2)) ∧
    (genValue [] 6 (.unionT [.intT, .strT]) none (FakerState.mk none 0) (RandState.mk 2) =
      (let q := randomChoice [PyType.intT, .strT] .noneT (RandState.mk 2)
       genValue [] 5 q.1 none (FakerState.mk none 0) q.2)) :=
  ⟨(c3_union_with_none_is_optional (fun t fi fk rg => genValue [] 5 t fi fk rg) fdMixed
      [.intT, .strT, .noneT] (FakerState.mk none 0) (RandState.mk 2) [] 5 none rfl).1
      (by decide),
   (c3_union_with_none_is_optional (fun t fi fk rg => genValue [] 5 t fi fk rg) fdPair
      [.intT, .strT] (FakerState.mk none 0) (RandState.mk 2) [] 5 none rfl).2.2
      (by decide)⟩

/-! ## Dictionary lemmas for the store handlers -/

/-- Replacement branch of `dictSet`: reading back the written key. -/
theorem pyGet_map_self (k : String) (v : JVal) :
    ∀ it : Item, it.any (fun p => p.1 == k) = true →
      pyGet (it.map (fun p => if p.1 == k then (p.1, v) else p)) k = v := by
  intro it
  induction it with
  | nil => intro h; cases h
  | cons p rest ih =>
    intro hany
    by_cases hp : (p.1 == k) = true
    · simp [pyGet, List.find?, hp]
    · have hrest : rest.any (fun p => p.1 == k) = true := by
        simp only [List.any_cons] at hany
        rcases Bool.or_eq_true_iff.mp hany with h1 | h2
        · exact absurd h1 hp
        · exact h2
      have := ih hrest
      simp only [List.map_cons, if_neg hp, pyGet, List.find?] at this ⊢
      rw [Bool.eq_false_iff.mpr hp] at *
      simpa using this

/-- Replacement branch of `dictSet`: other keys are untouched. -/
theorem pyGet_map_other (k : String) (v : JVal) (q : String) (hne : q ≠ k) :
    ∀ it : Item, pyGet (it.map (fun p => if p.1 == k then (p.1, v) else p)) q = pyGet it q := by
  intro it
  induction it with
  | nil => rfl
  | cons p rest ih =>
    by_cases hp : (p.1 == k) = true
    · have hpk : p.1 = k := eq_of_beq hp
      have hq : (p.1 == q) = false := by
        rw [hpk]
        exact beq_eq_false_iff_ne.mpr (fun h => hne h.symm)
      simp only [List.map_cons, if_pos hp, pyGet, List.find?, hq] at ih ⊢
      simpa [pyGet] using ih
    · by_cases hq : (p.1 == q) = true
      · simp [pyGet, List.find?, hp, hq]
      · simp only [List.map_cons, if_neg hp, pyGet, List.find?,
          Bool.eq_false_iff.mpr hq] at ih ⊢
        simpa [pyGet] using ih

/-- Append branch of `dictSet`: reading back the appended key. -/
theorem pyGet_append_single_self (k : String) (v : JVal) :
    ∀ it : Item, it.any (fun p => p.1 == k) = false →
      pyGet (it ++ [(k, v)]) k = v := by
  intro it
  induction it with
  | nil => intro _; simp [pyGet, List.find?]
  | cons p rest ih =>
    intro hany
    simp only [List.any_cons, Bool.or_eq_false_iff] at hany
    simp only [List.cons_append, pyGet, List.find?, hany.1] at ih ⊢
    simpa [pyGet] using ih hany.2

/-- Append branch of `dictSet`: other keys are untouched. -/
theorem pyGet_append_single_other (k : String) (v : JVal) (q : String) (hne : q ≠ k) :
    ∀ it : Item, pyGet (it ++ [(k, v)]) q = pyGet it q := by
  intro it
  induction it with
  | nil =>
    have : (k == q) = false := beq_eq_false_iff_ne.mpr (fun h => hne h.symm)
    simp [pyGet, List.find?, this]
  | cons p rest ih =>
    by_cases hp : (p.1 == q) = true
    · simp [pyGet, List.find?, hp]
    · simp only [List.cons_append, pyGet, List.find?,
        Bool.eq_false_iff.mpr hp] at ih ⊢
      simpa [pyGet] using ih

/-- `d[k] = v` then `d.get(k)` reads back `v`. -/
theorem pyGet_dictSet_self (it : Item) (k : String) (v : JVal) :
    pyGet (dictSet it k v) k = v := by
  unfold dictSet
  by_cases hany : it.any (fun p => p.1 == k) = true
  · rw [if_pos hany]
    exact pyGet_map_self k v it hany
  · rw [if_neg hany]
    exact pyGet_append_single_self k v it (Bool.eq_false_iff.mpr hany)

/-- `d[k] = v` leaves every other key's value unchanged. -/
theorem pyGet_dictSet_other (it : Item) (k : String) (v : JVal) (q : String)
    (hne : q ≠ k) : pyGet (dictSet it k v) q = pyGet it q := by
  unfold dictSet
  by_cases hany : it.any (fun p => p.1 == k) = true
  · rw [if_pos hany]
    exact pyGet_map_other k v q hne it
  · rw [if_neg hany]
    exact pyGet_append_single_other k v q hne it

/-! ## Fold lemmas for `_get_next_id` -/

/-- The running maximum never drops below where it starts. -/
theorem foldl_maxIdStep_ge_init (idf : String) :
    ∀ (items : List Item) (acc : Int), acc ≤ items.foldl (maxIdStep idf) acc := by
  intro items
  induction items with
  | nil => intro acc; simp
  | cons it rest ih =>
    intro acc
    have hstep : acc ≤ maxIdStep idf acc it := by
      unfold maxIdStep
      split
      · split <;> omega
      · omega
    exact le_trans hstep (ih (maxIdStep idf acc it))

/-- The running maximum dominates every integer identifier in the list. -/
theorem foldl_maxIdStep_ge_elem (idf : String) :
    ∀ (items : List Item) (acc : Int) (it : Item) (v : Int), it ∈ items →
      pyGet it idf = .intV v → v ≤ items.foldl (maxIdStep idf) acc := by
  intro items
  induction items with
  | nil => intro acc it v hmem; cases hmem
  | cons it0 rest ih =>
    intro acc it v hmem hv
    rcases List.mem_cons.mp hmem with h1 | h2
    · subst h1
      have hstep : v ≤ maxIdStep idf acc it := by
        unfold maxIdStep
        rw [hv]
        dsimp only
        split <;> omega
      exact le_trans hstep (foldl_maxIdStep_ge_init idf rest _)
    · exact ih (maxIdStep idf acc it0) it v h2 hv

/-- The running maximum is its initial value or an integer identifier attained in
the list. -/
theorem foldl_maxIdStep_attained (idf : String) :
    ∀ (items : List Item) (acc : Int),
      items.foldl (maxIdStep idf) acc = acc ∨
        ∃ it ∈ items, pyGet it idf = .intV (items.foldl (maxIdStep idf) acc) := by
  intro items
  induction items with
  | nil => intro acc; left; rfl
  | cons it0 rest ih =>
    intro acc
    rcases ih (maxIdStep idf acc it0) with h1 | h2
    · simp only [List.foldl_cons]
      rw [h1]
      unfold maxIdStep
      cases hv : pyGet it0 idf with
      | intV v =>
        by_cases hlt : acc < v
        · right
          refine ⟨it0, List.mem_cons_self _ _, ?_⟩
          simp [hlt, hv]
        · left
          simp [hlt]
      | null => left; rfl
      | boolV b => left; rfl
      | floatV n => left; rfl
      | strV s => left; rfl
      | arrV xs => left; rfl
      | objV ps => left; rfl
    · right
      obtain ⟨it, hmem, hval⟩ := h2
      exact ⟨it, List.mem_cons_of_mem _ hmem, hval⟩

/-- Witness model for the store claims: a model declaring only `id: int`. -/
def mIdOnly : ModelDef := ModelDef.mk "Thing" [FieldDef.mk "id" .intT {}]

/-- Counterexample for C7: with one stored item of id −5 and a payload whose id
is null, the created item gets id 1 (the handler's running maximum starts at 0),
not 1 plus the maximum existing integer id (which would be −4). -/
theorem c7_counterexample :
    (create_item mIdOnly [[("id", JVal.intV (-5))]] [("id", JVal.null)]
        (FakerState.mk none 0)).2.1 = [("id", JVal.intV 1)] ∧
    (1 : Int) + (-5) = -4 ∧
    JVal.intV 1 ≠ JVal.intV (1 + (-5)) :=
  ⟨rfl, by decide, fun h => absurd (JVal.intV.inj h) (by decide)⟩

/-- C7 (amended): when the served model declares `id : int` and the validated
payload's id is null, the created item is appended and carries
`id = 1 + max(0, maximum integer id among existing items)` — equivalently: the
new id is at least 1, strictly greater than every existing integer id, and is
either 1 or one more than an id attained by an existing item; it is exactly 1 on
an empty collection. -/
theorem c7_create_auto_id (m : ModelDef) (items : List Item) (payload : Item)
    (fk : FakerState) (hid : hasField m "id" = true)
    (hann : annIsInt (annOf m "id") = true)
    (hnull : (pyGet payload "id").isNull = true) :
    (create_item m items payload fk).1 = items ++ [(create_item m items payload fk).2.1] ∧
    pyGet (create_item m items payload fk).2.1 "id" = .intV (getNextId items "id") ∧
    (items = [] → getNextId items "id" = 1) ∧
    1 ≤ getNextId items "id" ∧
    (∀ it ∈ items, ∀ v : Int, pyGet it "id" = .intV v → v < getNextId items "id") ∧
    (getNextId items "id" = 1 ∨
      ∃ it ∈ items, pyGet it "id" = .intV (getNextId items "id" - 1)) := by
  have hstep : create_item m items payload fk =
      (items ++ [dictSet payload "id" (.intV (getNextId items "id"))],
        dictSet payload "id" (.intV (getNextId items "id")), fk) := by
    unfold create_item
    rw [if_pos ⟨hid, hann⟩, if_pos hnull]
  rw [hstep]
  refine ⟨rfl, pyGet_dictSet_self _ _ _, ?_, ?_, ?_, ?_⟩
  · intro hempty
    rw [hempty]
    rfl
  · cases items with
    | nil => simp [getNextId]
    | cons it0 rest =>
      have := foldl_maxIdStep_ge_init "id" (it0 :: rest) 0
      simp only [getNextId]
      omega
  · intro it hmem v hv
    cases items with
    | nil => cases hmem
    | cons it0 rest =>
      have := foldl_maxIdStep_ge_elem "id" (it0 :: rest) 0 it v hmem hv
      simp only [getNextId]
      omega
  · cases items with
    | nil => left; rfl
    | cons it0 rest =>
      rcases foldl_maxIdStep_attained "id" (it0 :: rest) 0 with h1 | h2
      · left
        simp only [getNextId]
        omega
      · right
        obtain ⟨it, hmem, hval⟩ := h2
        refine ⟨it, hmem, ?_⟩
        have heq : getNextId (it0 :: rest) "id" - 1 =
            (it0 :: rest).foldl (maxIdStep "id") 0 := by
          simp only [getNextId]
          omega
        rw [heq]
        exact hval

/-- Witness for the amended C7 at a concrete store: ids 2 and 7 exist, the new
item gets id 8. -/
theorem c7_create_auto_id_witness :
    (create_item mIdOnly [[("id", JVal.intV 2)], [("id", JVal.intV 7)]] [("id", JVal.null)]
        (FakerState.mk none 0)).1 =
        [[("id", JVal.intV 2)], [("id", JVal.intV 7)]] ++
          [(create_item mIdOnly [[("id", JVal.intV 2)], [("id", JVal.intV 7)]]
            [("id", JVal.null)] (FakerState.mk none 0)).2.1] ∧
      pyGet (create_item mIdOnly [[("id", JVal.intV 2)], [("id", JVal.intV 7)]]
          [("id", JVal.null)] (FakerState.mk none 0)).2.1 "id" =
        .intV (getNextId [[("id", JVal.intV 2)], [("id", JVal.intV 7)]] "id") ∧
      ([[("id", JVal.intV 2)], [("id", JVal.intV 7)]] = ([] : List Item) →
        getNextId [[("id", JVal.intV 2)], [("id", JVal.intV 7)]] "id" = 1) ∧
      1 ≤ getNextId [[("id", JVal.intV 2)], [("id", JVal.intV 7)]] "id" ∧
      (∀ it ∈ [[("id", JVal.intV 2)], [("id", JVal.intV 7)]], ∀ v : Int,
        pyGet it "id" = .intV v →
        v < getNextId [[("id", JVal.intV 2)], [("id", JVal.intV 7)]] "id") ∧
      (getNextId [[("id", JVal.intV 2)], [("id", JVal.intV 7)]] "id" = 1 ∨
        ∃ it ∈ [[("id", JVal.intV 2)], [("id", JVal.intV 7)]],
          pyGet it "id" =
            .intV (getNextId [[("id", JVal.intV 2)], [("id", JVal.intV 7)]] "id" - 1)) :=
  c7_create_auto_id mIdOnly [[("id", JVal.intV 2)], [("id", JVal.intV 7)]]
    [("id", JVal.null)] (FakerState.mk none 0) rfl rfl rfl

/-- Witness model for C8's counterexample: `id: int | None` and a payload
field `x: int`. -/
def mOptId : ModelDef :=
  ModelDef.mk "Rec" [FieldDef.mk "id" (.unionT [.intT, .noneT]) {}, FieldDef.mk "x" .intT {}]

/-- Counterexample for C8: a stored item whose `id` is null is resolved by the
positional fallback, and the PUT stores the payload's id (7) instead of keeping
the original identifier (null) — the handler only copies the original identifier
back when it is non-null. -/
theorem c8_counterexample :
    update_item mOptId [[("id", JVal.null), ("x", JVal.intV 1)]] "0"
        [("id", JVal.intV 7), ("x", JVal.intV 2)] =
      some ([[("id", JVal.intV 7), ("x", JVal.intV 2)]],
        [("id", JVal.intV 7), ("x", JVal.intV 2)]) ∧
    pyGet [("id", JVal.null), ("x", JVal.intV 1)] "id" = JVal.null ∧
    pyGet [("id", JVal.intV 7), ("x", JVal.intV 2)] "id" = JVal.intV 7 ∧
    JVal.intV 7 ≠ JVal.null :=
  ⟨rfl, rfl, rfl, fun h => JVal.noConfusion h⟩

/-- C8 (amended): a PUT that resolves an existing item whose identifier value is
NON-NULL stores and returns the payload with the original identifier copied back
over it, every other field taking the payload's value; when the original
identifier is null, the payload's identifier stands. -/
theorem c8_update_preserves_nonnull_id (m : ModelDef) (items : List Item) (k : String)
    (payload : Item) (idf : String) (i : Nat)
    (hidf : resolveIdField m = some idf)
    (hres : resolveIndex m items k = some i)
    (horig : (pyGet ((items.drop i).headD []) idf).isNull = false) :
    ∀ st upd, update_item m items k payload = some (st, upd) →
      pyGet upd idf = pyGet ((items.drop i).headD []) idf ∧
      (∀ q, q ≠ idf → pyGet upd q = pyGet payload q) ∧
      st = items.set i upd := by
  intro st upd hup
  unfold update_item at hup
  rw [hres] at hup
  dsimp only at hup
  rw [hidf] at hup
  dsimp only at hup
  rcases hv2 : pyGet ((items.drop i).headD []) idf with _ | b | n | fl | s | xs | ps
  · exfalso
    rw [hv2] at horig
    simp [JVal.isNull] at horig
  all_goals (
    rw [hv2] at hup
    dsimp only at hup
    have h3 := Option.some.inj hup
    cases h3
    refine ⟨?_, ?_, rfl⟩
    · exact pyGet_dictSet_self _ _ _
    · intro q hq
      exact pyGet_dictSet_other _ _ _ _ hq)

/-- Witness for the amended C8: the stored item with id 5 is resolved by id "5";
the payload id 99 is overridden back to 5. -/
theorem c8_update_preserves_nonnull_id_witness :
    pyGet [("id", JVal.intV 5)] "id" =
        pyGet ((([[("id", JVal.intV 5)]] : List Item).drop 0).headD []) "id" ∧
      (∀ q, q ≠ "id" →
        pyGet [("id", JVal.intV 5)] q = pyGet [("id", JVal.intV 99)] q) ∧
      [[("id", JVal.intV 5)]] = ([[("id", JVal.intV 5)]] : List Item).set 0 [("id", JVal.intV 5)] :=
  c8_update_preserves_nonnull_id mIdOnly [[("id", JVal.intV 5)]] "5"
    [("id", JVal.intV 99)] "id" 0 rfl rfl rfl [[("id", JVal.intV 5)]]
    [("id", JVal.intV 5)] rfl

/-- Witness store for C9's counterexample: ids 5, 1, 9. -/
def demoStore : List Item :=
  [[("id", JVal.intV 5)], [("id", JVal.intV 1)], [("id", JVal.intV 9)]]

/-- Counterexample for C9: DELETE "/things/1" removes the item whose id equals 1,
but the immediately following GET "/things/1" falls back to treating 1 as a
positional index into the remaining two items and returns the item with id 9
instead of a 404. -/
theorem c9_counterexample :
    delete_item mIdOnly demoStore "1" =
      some [[("id", JVal.intV 5)], [("id", JVal.intV 9)]] ∧
    get_item mIdOnly [[("id", JVal.intV 5)], [("id", JVal.intV 9)]] "1" =
      some [("id", JVal.intV 9)] ∧
    some [("id", JVal.intV 9)] ≠ (none : Option Item) :=
  ⟨rfl, rfl, fun h => Option.noConfusion h⟩

/-- C9 (amended): after a DELETE resolves and removes an item, the following GET
with the same identifier reports 404 (`none`) UNLESS the identifier string
matches a remaining item's non-null identifier or parses as an in-range
zero-based positional index into the remaining collection. -/
theorem c9_delete_then_get_404 (m : ModelDef) (items rem : List Item) (k : String)
    (idf : String) (hidf : resolveIdField m = some idf)
    (hdel : delete_item m items k = some rem)
    (hnomatch : ∀ it ∈ rem, (pyGet it idf).isNull = false → pyStr (pyGet it idf) ≠ k)
    (hidx : ∀ idx : Int, parsePyInt k = some idx →
      ¬(0 ≤ idx ∧ idx < (rem.length : Int))) :
    get_item m rem k = none := by
  simp only [get_item, hidf]
  have hfind : rem.find? (fun it =>
      match pyGet it idf with
      | .null => false
      | v => pyStr v == k) = none := by
    rw [List.find?_eq_none]
    intro it hmem
    cases hv : pyGet it idf with
    | null => simp
    | boolV b =>
      have := hnomatch it hmem (by rw [hv]; rfl)
      rw [hv] at this
      simpa using this
    | intV n =>
      have := hnomatch it hmem (by rw [hv]; rfl)
      rw [hv] at this
      simpa using this
    | floatV n =>
      have := hnomatch it hmem (by rw [hv]; rfl)
      rw [hv] at this
      simpa using this
    | strV s =>
      have := hnomatch it hmem (by rw [hv]; rfl)
      rw [hv] at this
      simpa using this
    | arrV xs =>
      have := hnomatch it hmem (by rw [hv]; rfl)
      rw [hv] at this
      simpa using this
    | objV ps =>
      have := hnomatch it hmem (by rw [hv]; rfl)
      rw [hv] at this
      simpa using this
  rw [hfind]
  dsimp only
  cases hp : parsePyInt k with
  | none => rfl
  | some idx =>
    dsimp only
    rw [if_neg (hidx idx hp)]

/-- Witness for the amended C9: deleting the only item (id 1) leaves an empty
store, no identifier matches and index 1 is out of range, so the GET is 404. -/
theorem c9_delete_then_get_404_witness :
    get_item mIdOnly ([] : List Item) "1" = none :=
  c9_delete_then_get_404 mIdOnly [[("id", JVal.intV 1)]] [] "1" "id" rfl rfl
    (fun it hmem => absurd hmem (List.not_mem_nil it))
    (fun idx h => by
      have hpk : parsePyInt "1" = some 1 := rfl
      rw [hpk] at h
      have h2 := Option.some.inj h
      subst h2
      decide)

end PydanticFaker
